import Mathlib

/-!
Shallow embedding of the RTanks scraper/translator (src/scraper.py,
src/translator.py) and verification of the frozen claims.

Modelling conventions:
* Python strings are Lean `String`; character-level operations work on
  `List Char` via `String.toList` / `String.mk`.
* Python `str.lower()` is modelled for the ASCII and Cyrillic ranges, the
  only scripts the program's keyword sets use.
* Python `str.isalpha()` is modelled for ASCII letters, the Latin-1
  supplement letters and the Cyrillic block.
* Python `float` values are modelled as exact rationals `ℚ`; the parser
  `parsePyFloat` covers the plain decimal forms (optional sign, digits,
  optional fractional part) that the scraped cells use.
* The external translation service (`googletrans`) is modelled as a pair of
  deterministic oracles `detect`, `trans : String → Option String`, with
  `none` standing for a raised exception.
* An exception escaping to `get_player_stats`' outer `try` is modelled by
  the function returning `none`.
-/

namespace RTanks

/-- Python `str.lower()` restricted to ASCII and Cyrillic:
`A`-`Z` → `a`-`z`, `А`-`Я` (U+0410–U+042F) → `а`-`я`, `Ё` → `ё`. -/
def pyLowerChar (c : Char) : Char :=
  if c.toNat ≥ 65 ∧ c.toNat ≤ 90 then Char.ofNat (c.toNat + 32)
  else if c.toNat ≥ 0x410 ∧ c.toNat ≤ 0x42F then Char.ofNat (c.toNat + 32)
  else if c.toNat = 0x401 then Char.ofNat 0x451
  else c

/-- Python `str.lower()` on a string (ASCII + Cyrillic model). -/
def pyLower (s : String) : String :=
  String.mk (s.toList.map pyLowerChar)

/-- Python `str.isalpha()` modelled for ASCII letters, Latin-1 supplement
letters (U+00C0–U+00FF without `×`, `÷`) and the Cyrillic block
(U+0400–U+04FF). -/
def pyIsAlpha (c : Char) : Bool :=
  (c.toNat ≥ 65 ∧ c.toNat ≤ 90) ∨ (c.toNat ≥ 97 ∧ c.toNat ≤ 122) ∨
  (c.toNat ≥ 0xC0 ∧ c.toNat ≤ 0xFF ∧ c.toNat ≠ 0xD7 ∧ c.toNat ≠ 0xF7) ∨
  (c.toNat ≥ 0x400 ∧ c.toNat ≤ 0x4FF)

/-- Does `pre` occur as a prefix of `l`? -/
def listIsPrefix (pre l : List Char) : Bool :=
  match pre, l with
  | [], _ => true
  | _ :: _, [] => false
  | p :: ps, c :: cs => p = c && listIsPrefix ps cs

/-- Python's `needle in hay` substring test on char lists. -/
def listContains (hay needle : List Char) : Bool :=
  match hay with
  | [] => listIsPrefix needle []
  | _ :: rest => listIsPrefix needle hay || listContains rest needle

/-- Python's `needle in hay` substring test on strings. -/
def containsSub (hay needle : String) : Bool :=
  listContains hay.toList needle.toList

/-- Python `str.strip()` on a char list: drop whitespace from both ends. -/
def trimChars (cs : List Char) : List Char :=
  ((cs.dropWhile Char.isWhitespace).reverse.dropWhile Char.isWhitespace).reverse

/-- Python `str.strip()` on a string. -/
def pyStrip (s : String) : String := String.mk (trimChars s.toList)

/-- Numeric value of a list of decimal digit characters (as Python `int`
reads a digit string). -/
def natOfDigits (cs : List Char) : Nat :=
  cs.foldl (fun n c => 10 * n + (c.toNat - 48)) 0

/-- Python `int(s)` for an unsigned decimal string: strip whitespace, then
require a non-empty run of digits; `none` models a raised `ValueError`. -/
def pyIntNat (cs : List Char) : Option Nat :=
  let t := trimChars cs
  if t ≠ [] ∧ t.all Char.isDigit then some (natOfDigits t) else none

/-- Python `int(s)` with an optional sign, used for leaderboard values. -/
def pyIntZ (cs : List Char) : Option Int :=
  let t := trimChars cs
  match t with
  | '-' :: rest =>
      if rest ≠ [] ∧ rest.all Char.isDigit then some (-(natOfDigits rest : Int)) else none
  | '+' :: rest =>
      if rest ≠ [] ∧ rest.all Char.isDigit then some ((natOfDigits rest : Int)) else none
  | _ => if t ≠ [] ∧ t.all Char.isDigit then some ((natOfDigits t : Int)) else none

/-- Fractional value contributed by the digits after a decimal point. -/
def fracOfDigits (cs : List Char) : ℚ :=
  (natOfDigits cs : ℚ) / ((10 : ℚ) ^ cs.length)

/-- Unsigned decimal-form body of Python `float(s)`:
`digits`, `digits.`, `digits.digits` or `.digits`. -/
def parseFloatBody (cs : List Char) : Option ℚ :=
  let intPart := cs.takeWhile Char.isDigit
  let rest := cs.dropWhile Char.isDigit
  match rest with
  | [] => if intPart ≠ [] then some (natOfDigits intPart : ℚ) else none
  | '.' :: fracDigits =>
      if fracDigits.all Char.isDigit ∧ (intPart ≠ [] ∨ fracDigits ≠ []) then
        some ((natOfDigits intPart : ℚ) + fracOfDigits fracDigits)
      else none
  | _ => none

/-- Python `float(s)` (plain decimal forms): strip whitespace, optional
sign, then a decimal body; `none` models a raised `ValueError`. -/
def parsePyFloat (s : String) : Option ℚ :=
  let t := trimChars s.toList
  match t with
  | '-' :: rest => (parseFloatBody rest).map (fun q => -q)
  | '+' :: rest => parseFloatBody rest
  | _ => parseFloatBody t

/-- Python `str.replace(a, b)` for single-character `a`, `b` dropped:
remove every occurrence of character `a`. -/
def removeChar (a : Char) (s : String) : String :=
  String.mk (s.toList.filter (fun c => c ≠ a))

/-- Python `str.replace(',', '.')` on a string. -/
def commaToDot (s : String) : String :=
  String.mk (s.toList.map (fun c => if c = ',' then '.' else c))

/-- First-match association-list lookup (Python `dict` read). -/
def assocFind (l : List (String × String)) (k : String) : Option String :=
  match l with
  | [] => none
  | (k', v) :: rest => if k = k' then some v else assocFind rest k

/-! ## Translator (`src/translator.py`, class `RTanksTranslator`) -/

/-- `self.common_translations` from `RTanksTranslator.__init__`. -/
def common_translations : List (String × String) :=
  [("уничтожил", "destroyed"),
   ("подбит", "destroyed"),
   ("группа", "group"),
   ("игрок", "player"),
   ("премиум", "premium"),
   ("да", "yes"),
   ("нет", "no"),
   ("поймано золотых ящиков", "gold boxes caught"),
   ("опыт", "experience"),
   ("кристаллы", "crystals"),
   ("эффективность", "efficiency"),
   ("рейтинг", "rating"),
   ("место", "rank"),
   ("киллы", "kills"),
   ("смерти", "deaths"),
   ("установленный", "equipped"),
   ("стоимость", "cost")]

/-- `self.cache`: a Python dict from source text to translation, modelled as
an association list where insertion prepends (lookup sees the newest
binding, matching dict overwrite semantics). -/
abbrev Cache := List (String × String)

/-- `RTanksTranslator._translate_text_sync`: detect the language, and only
when it is Russian call the translation service; `none` models an exception
caught inside the method (which returns `None`). -/
def translate_text_sync (detect trans : String → Option String)
    (text : String) : Option String :=
  match detect text with
  | none => none
  | some lang => if lang = "ru" then trans text else some text

/-- `RTanksTranslator.translate_text`, state-passing: returns the translated
text together with the updated cache. -/
def translate_text (detect trans : String → Option String)
    (cache : Cache) (text : String) : String × Cache :=
  if text = "" then ("", cache)
  else
    match assocFind cache text with
    | some v => (v, cache)
    | none =>
      if text.toList.all (fun c => !(pyIsAlpha c) || decide (c.toNat < 128)) then
        (text, (text, text) :: cache)
      else
        match assocFind common_translations (pyStrip (pyLower text)) with
        | some v => (v, (text, v) :: cache)
        | none =>
          match translate_text_sync detect trans text with
          | some t => if t ≠ "" then (t, (text, t) :: cache) else (text, cache)
          | none => (text, cache)

/-! ## Scraper (`src/scraper.py`, class `RTanksPlayerScraper`)

A fetched, parsed document is abstracted to exactly the features the
scraper reads from the soup:
* `rankImgSrc`: `src` of the first `<img>` whose `src` matches `imgur\.com`;
* `grayFonts`: in document order, the stripped texts of the `<font>`
  elements whose `style` attribute contains `gray` (case-insensitively);
* `textXp`: stripped text of the first `<div class="text_xp">`;
* `tables`: each table's rows, each row its `<td>` cells;
* `equipmentSections`: stripped texts of the `div`s whose class matches
  `equipment|loadout`;
* `crystalHeading`: `none` when no text node matches `кристалл`;
  `some none` when the heading exists but no table follows it;
  `some (some t)` when the nearest following table is `t`. -/

/-- A `<td>` cell: its stripped text, the text of the first `<a>` inside it
(if any), and the `src` of the first `<img>` inside it (if it has one). -/
structure Cell where
  text : String
  linkText : Option String
  imgSrc : Option String
deriving Repr, DecidableEq

/-- A table row: its list of `<td>` cells. -/
abbrev Row := List Cell

/-- A table: its list of rows. -/
abbrev Table := List Row

/-- The features of a parsed document that the scraper reads. -/
structure Doc where
  rankImgSrc : Option String
  grayFonts : List String
  textXp : Option String
  tables : List Table
  equipmentSections : List String
  crystalHeading : Option (Option Table)
deriving Repr, DecidableEq

/-- All table rows of the document, in document order (the nested
`for table in soup.find_all('table'): for row in table.find_all('tr')`
iteration). -/
def allRows (doc : Doc) : List Row := doc.tables.flatten

/-- `rank_mappings` from `_extract_rank_from_image`. -/
def rank_mappings : List (String × String) :=
  [("a3UCeT5.png", "Warrant Officer 5"),
   ("O6Tb9li.png", "Colonel"),
   ("rCN2gJm.png", "Lieutenant Colonel"),
   ("R69LmLt.png", "Major"),
   ("Ljy2jDX.png", "Captain"),
   ("lTXxLVJ.png", "First Lieutenant"),
   ("iTyjOt3.png", "Second Lieutenant"),
   ("BIr8vRX.png", "Warrant Officer 4"),
   ("sppjRis.png", "Warrant Officer 3"),
   ("LATOpxZ.png", "Warrant Officer 2"),
   ("ekbJYyf.png", "Warrant Officer 1"),
   ("GzJRzgz.png", "Master Sergeant"),
   ("pxzNyxi.png", "Sergeant First Class"),
   ("UWup9qJ.png", "Staff Sergeant"),
   ("dSE90bT.png", "Sergeant"),
   ("paF1myt.png", "Corporal"),
   ("wPZnaG0.png", "Lance Corporal"),
   ("Or6Ajto.png", "Private First Class"),
   ("AYAs02w.png", "Private"),
   ("M4GBQIq.png", "Recruit"),
   ("Q2YgFQ1.png", "Legend"),
   ("rO3Hs5f.png", "Generalissimo"),
   ("OQEHkm7.png", "General"),
   ("BNZpCPo.png", "Lieutenant General"),
   ("eQXJOZE.png", "Major General"),
   ("Sluzy", "Brigadier General")]

/-- Python `str.split(sep)` for a one-character separator, on char lists. -/
def splitOnChar (sep : Char) : List Char → List (List Char)
  | [] => [[]]
  | c :: rest =>
    let r := splitOnChar sep rest
    if c = sep then [] :: r
    else
      match r with
      | [] => [[c]]
      | g :: gs => (c :: g) :: gs

/-- Python `img_src.split('/')[-1]`. -/
def lastSlashSegment (s : String) : String :=
  String.mk ((splitOnChar '/' s.toList).getLastD s.toList)

/-- `RTanksPlayerScraper._extract_rank_from_image`. -/
def extract_rank_from_image (img_src : String) : String :=
  if containsSub img_src "imgur.com" then
    (assocFind rank_mappings (lastSlashSegment img_src)).getD "Unknown Rank"
  else "Unknown Rank"

/-- The `player_data` dict of `get_player_stats`, with the defaults it is
initialised with. The Python `float` field `kd_ratio` is modelled as `ℚ`. -/
structure PlayerRecord where
  nickname : String
  rank : String := "Unknown"
  experience : Nat := 0
  kills : Nat := 0
  deaths : Nat := 0
  kd_ratio : ℚ := 0
  premium : Bool := false
  goldboxes : Nat := 0
  crystals_rank : String := "N/A"
  efficiency_rank : String := "N/A"
  experience_rank : String := "N/A"
  kills_rank : String := "N/A"
  equipment : String := ""
deriving Repr, DecidableEq

/-- The `(?:\s\d{3})*` tail of the experience regex
`r'(\d{1,3}(?:\s\d{3})*)'`: greedily consume groups of one whitespace
character followed by exactly three digits. -/
def sepGroups : List Char → List Char
  | w :: d1 :: d2 :: d3 :: rest =>
    if w.isWhitespace ∧ d1.isDigit ∧ d2.isDigit ∧ d3.isDigit then
      w :: d1 :: d2 :: d3 :: sepGroups rest
    else []
  | _ => []

/-- `re.search(r'(\d{1,3}(?:\s\d{3})*)', s)`: scan left to right for the
first digit; there, `\d{1,3}` greedily takes up to three digits of the
digit run and the separator groups follow. Returns the matched text. -/
def expSearchAux : List Char → Option (List Char)
  | [] => none
  | c :: rest =>
    if c.isDigit then
      let l := c :: rest
      let k := min 3 (l.takeWhile Char.isDigit).length
      some (l.take k ++ sepGroups (l.drop k))
    else expSearchAux rest

/-- `int(exp_match.group(1).replace(' ', ''))`; `none` models the
`ValueError` that escapes to the outer `try` of `get_player_stats`. -/
def expValueOfMatch (m : List Char) : Option Nat :=
  pyIntNat (m.filter (fun c => c ≠ ' '))

/-- Experience method 2: scan rows for a category cell containing
`по опыту`/`опыт` and parse the third cell with the experience regex;
the scan stops at the first row whose value cell matches the regex. -/
def expMethod2 (r : PlayerRecord) : List Row → Option PlayerRecord
  | [] => some r
  | row :: rest =>
    match row with
    | c0 :: _ :: c2 :: _ =>
      let category := pyLower c0.text
      if containsSub category "по опыту" ∨ containsSub category "опыт" then
        match expSearchAux c2.text.toList with
        | some m =>
          match expValueOfMatch m with
          | some n => some { r with experience := n }
          | none => none
        | none => expMethod2 r rest
      else expMethod2 r rest
    | _ => expMethod2 r rest

/-- Experience extraction: method 1 reads the `text_xp` progress
indicator; method 2 (the table fallback) runs only when method 1 found no
regex match. `none` models an exception from `int(...)`. -/
def expPass (doc : Doc) (r : PlayerRecord) : Option PlayerRecord :=
  match doc.textXp with
  | some t =>
    match expSearchAux t.toList with
    | some m =>
      match expValueOfMatch m with
      | some n => some { r with experience := n }
      | none => none
    | none => expMethod2 r (allRows doc)
  | none => expMethod2 r (allRows doc)

/-- `int(re.sub(r'[^\d]', '', value) or 0)`. -/
def intDigitsOr0 (s : String) : Nat :=
  let d := s.toList.filter Char.isDigit
  if d = [] then 0 else natOfDigits d

/-- One row of the kills/deaths/KD/premium/goldboxes pass (rows with at
least two cells, first cell lower-cased as key, second as value). -/
def statStep (r : PlayerRecord) (row : Row) : PlayerRecord :=
  match row with
  | c0 :: c1 :: _ =>
    let key := pyLower c0.text
    let value := c1.text
    if containsSub key "уничтожил" ∨ containsSub key "kills" then
      { r with kills := intDigitsOr0 value }
    else if containsSub key "подбит" ∨ containsSub key "deaths" then
      { r with deaths := intDigitsOr0 value }
    else if containsSub key "у/п" ∨ containsSub key "k/d" ∨
        containsSub key "эффективность" then
      match parsePyFloat (commaToDot value) with
      | some q => { r with kd_ratio := q }
      | none => r
    else if containsSub key "премиум" ∨ containsSub key "premium" then
      { r with premium :=
          containsSub (pyLower value) "да" || containsSub (pyLower value) "yes" }
    else if containsSub key "золот" ∨ containsSub key "gold" then
      { r with goldboxes := intDigitsOr0 value }
    else r
  | _ => r

/-- One row of the ranking-positions pass (rows with at least three cells;
the second cell with every `#` removed becomes the position, `"0"` maps to
the `"N/A"` sentinel). -/
def rankingStep (r : PlayerRecord) (row : Row) : PlayerRecord :=
  match row with
  | c0 :: c1 :: _ :: _ =>
    let category := pyLower c0.text
    let rk := removeChar '#' c1.text
    if containsSub category "по опыту" then
      { r with experience_rank := if rk ≠ "0" then rk else "N/A" }
    else if containsSub category "голдоловов" ∨ containsSub category "золот" then
      r
    else if containsSub category "по киллам" then
      { r with kills_rank := if rk ≠ "0" then rk else "N/A" }
    else if containsSub category "по эффективности" then
      { r with efficiency_rank := if rk ≠ "0" then rk else "N/A" }
    else r
  | _ => r

/-- The rank-from-image step: when an `imgur.com` image exists, its
mapped rank replaces the default. -/
def rankImagePass (doc : Doc) (r : PlayerRecord) : PlayerRecord :=
  match doc.rankImgSrc with
  | some src => { r with rank := extract_rank_from_image src }
  | none => r

/-- The gray-font text step: the first gray-styled text whose length is
strictly between 2 and 30 becomes the rank verbatim. -/
def grayFontPass (fonts : List String) (r : PlayerRecord) : PlayerRecord :=
  match fonts.find? (fun t =>
      decide (t ≠ "") && decide (2 < t.length) && decide (t.length < 30)) with
  | some t => { r with rank := t }
  | none => r

/-- The equipment step: concatenate the section texts, space-joined,
then strip (only when some section exists — the result is `""` either way
when there is none). -/
def equipmentPass (sections : List String) (r : PlayerRecord) : PlayerRecord :=
  match sections with
  | [] => r
  | _ =>
    { r with equipment := pyStrip (sections.foldl (fun acc s => acc ++ s ++ " ") "") }

/-- `RTanksPlayerScraper.get_player_stats` after a successful fetch:
parse the document into a `PlayerRecord`. `none` models an exception
reaching the outer `try` (only `int` on the experience match can raise). -/
def get_player_stats (doc : Doc) (nickname : String) : Option PlayerRecord :=
  let r0 : PlayerRecord := { nickname := nickname }
  let r1 := rankImagePass doc r0
  let r2 := grayFontPass doc.grayFonts r1
  match expPass doc r2 with
  | none => none
  | some r3 =>
    let r4 := (allRows doc).foldl statStep r3
    let r5 := (allRows doc).foldl rankingStep r4
    some (equipmentPass doc.equipmentSections r5)

/-- A leaderboard `value`: Python stores either the parsed `int` or the
raw cell text. -/
inductive LbValue where
  | num : Int → LbValue
  | raw : String → LbValue
deriving Repr, DecidableEq

/-- One leaderboard entry dict. -/
structure LeaderboardEntry where
  position : String
  nickname : String
  rank : String
  value : LbValue
deriving Repr, DecidableEq

/-- Parse one leaderboard row (rows with at least three cells whose second
cell contains a hyperlink); used identically by the default scan and by
the crystals-specific table scan. -/
def parseLbRow (row : Row) : Option LeaderboardEntry :=
  match row with
  | c0 :: c1 :: c2 :: _ =>
    match c1.linkText with
    | some nick =>
      let rank :=
        match c1.imgSrc with
        | some src => extract_rank_from_image src
        | none => "Unknown"
      let vt := c2.text
      let value :=
        match pyIntZ ((removeChar ',' (removeChar ' ' vt)).toList) with
        | some n => LbValue.num n
        | none => LbValue.raw vt
      some ⟨c0.text, nick, rank, value⟩
    | none => none
  | _ => none

/-- `RTanksPlayerScraper.get_leaderboard` after a successful fetch:
default full-document scan; for the crystals category, when a `кристалл`
heading with a following table exists, that table's entries replace the
default scan; truncated to the first 100 entries. -/
def get_leaderboard (doc : Doc) (category : String) : List LeaderboardEntry :=
  let base := (allRows doc).filterMap parseLbRow
  let data :=
    if category = "crystals" then
      match doc.crystalHeading with
      | some (some tbl) => tbl.filterMap parseLbRow
      | _ => base
    else base
  data.take 100

/-! ## Definitions supporting the claims

Specification-side notions the claim statements quantify over, and the
concrete documents and records used by counterexamples and witnesses. -/

/-- Rendering of the space-separated thousands groups that follow the
leading group of a grouped numeral (`" 106"`, `" 430"`, ...). -/
def groupedTail : List (List Char) → List Char
  | [] => []
  | g :: gs => ' ' :: (g ++ groupedTail gs)

/-- A thousands group: exactly three digit characters. -/
def GoodGroup (g : List Char) : Prop := g.length = 3 ∧ ∀ c ∈ g, c.isDigit = true

instance goodGroupDecidable (g : List Char) : Decidable (GoodGroup g) :=
  inferInstanceAs (Decidable (g.length = 3 ∧ ∀ c ∈ g, c.isDigit = true))

/-- The match the experience progress indicator produces, if any: `none`
exactly when strategy 1 "finds nothing" and the table fallback runs. -/
def xpIndicatorMatch (doc : Doc) : Option (List Char) :=
  match doc.textXp with
  | some t => expSearchAux t.toList
  | none => none

/-- Does a row qualify for the experience table fallback: at least three
cells, bilingual experience keyword in the category cell, and the
experience regex matching the value cell? -/
def expRowQualifies (row : Row) : Bool :=
  match row with
  | c0 :: _ :: c2 :: _ =>
      (containsSub (pyLower c0.text) "по опыту" || containsSub (pyLower c0.text) "опыт")
        && (expSearchAux c2.text.toList).isSome
  | _ => false

/-- The value the experience fallback parses out of a qualifying row. -/
def expRowValue (row : Row) : Option Nat :=
  match row with
  | _ :: _ :: c2 :: _ =>
      match expSearchAux c2.text.toList with
      | some m => expValueOfMatch m
      | none => none
  | _ => none

/-- The qualifying leaderboard entries in document order, before the
100-entry truncation. -/
def lbEntries (doc : Doc) (category : String) : List LeaderboardEntry :=
  if category = "crystals" then
    match doc.crystalHeading with
    | some (some tbl) => tbl.filterMap parseLbRow
    | _ => (allRows doc).filterMap parseLbRow
  else (allRows doc).filterMap parseLbRow

/-- The C8 claim's reading of position stripping — remove one leading `#`
only — stated from the claim's words for comparison with the code's
remove-every-`#` behaviour (`removeChar '#'`). -/
def claimStripLeadingHash (s : String) : String :=
  match s.toList with
  | '#' :: rest => String.mk rest
  | _ => s

/-- A document whose only rank signal is a gray-styled Russian text of
length 7 (strictly between 2 and 30). -/
def c1Doc : Doc :=
  { rankImgSrc := none, grayFonts := ["рядовой"], textXp := none,
    tables := [], equipmentSections := [], crystalHeading := none }

/-- The record `get_player_stats` extracts from `c1Doc`. -/
def c1Rec : PlayerRecord := { nickname := "SomePlayer", rank := "рядовой" }

/-- A document with the experience progress indicator `"2 106 / 3 700"`. -/
def c3Doc : Doc :=
  { rankImgSrc := none, grayFonts := [], textXp := some "2 106 / 3 700",
    tables := [], equipmentSections := [], crystalHeading := none }

/-- The record `get_player_stats` extracts from `c3Doc`. -/
def c3Rec : PlayerRecord := { nickname := "p", experience := 2106 }

/-- No progress indicator; an experience category row
`По опыту | #12 | 15 430` in the ratings table. -/
def c4Doc : Doc :=
  { rankImgSrc := none, grayFonts := [], textXp := none,
    tables := [[[⟨"По опыту", none, none⟩, ⟨"#12", none, none⟩, ⟨"15 430", none, none⟩]]],
    equipmentSections := [], crystalHeading := none }

/-- The record `get_player_stats` extracts from `c4Doc`. -/
def c4Rec : PlayerRecord :=
  { nickname := "p", experience := 15430, experience_rank := "12" }

/-- A progress indicator and a conflicting experience category row: the
fallback must not be consulted. -/
def c4bDoc : Doc :=
  { rankImgSrc := none, grayFonts := [], textXp := some "2 106 / 3 700",
    tables := [[[⟨"По опыту", none, none⟩, ⟨"#1", none, none⟩, ⟨"9 999", none, none⟩]]],
    equipmentSections := [], crystalHeading := none }

/-- The record `get_player_stats` extracts from `c4bDoc`. -/
def c4bRec : PlayerRecord :=
  { nickname := "p", experience := 2106, experience_rank := "1" }

/-- A qualifying leaderboard row (second cell holds a hyperlink). -/
def c6Row : Row := [⟨"1", none, none⟩, ⟨"Nick", some "Nick", none⟩, ⟨"10", none, none⟩]

/-- A document whose single table has 101 qualifying rows. -/
def c6Doc : Doc :=
  { rankImgSrc := none, grayFonts := [], textXp := none,
    tables := [List.replicate 101 c6Row], equipmentSections := [],
    crystalHeading := none }

/-- A ranking row whose position cell is `#0#`: `#`-stripping semantics
distinguish the claim's reading from the code. -/
def c8Doc : Doc :=
  { rankImgSrc := none, grayFonts := [], textXp := none,
    tables := [[[⟨"По опыту", none, none⟩, ⟨"#0#", none, none⟩, ⟨"x", none, none⟩]]],
    equipmentSections := [], crystalHeading := none }

/-- A document exercising several extraction paths at once. -/
def c9Doc : Doc :=
  { rankImgSrc := some "https://i.imgur.com/O6Tb9li.png", grayFonts := [],
    textXp := some "2 106 / 3 700",
    tables := [[[⟨"Уничтожил", none, none⟩, ⟨"100", none, none⟩]]],
    equipmentSections := [], crystalHeading := none }

/-- The record `get_player_stats` extracts from `c9Doc`. -/
def c9Rec : PlayerRecord :=
  { nickname := "p", rank := "Colonel", experience := 2106, kills := 100 }

/-- A document with a `кристалл` heading but no table following it, and
one qualifying leaderboard row elsewhere. -/
def c10Doc : Doc :=
  { rankImgSrc := none, grayFonts := [], textXp := none,
    tables := [[[⟨"1", none, none⟩, ⟨"N", some "N", none⟩, ⟨"5", none, none⟩]]],
    equipmentSections := [], crystalHeading := some none }

/-! ## Translation-cache lemmas and claims C2, C7 -/

/-- A non-empty text that is cached comes straight back out of the cache. -/
theorem translate_text_cached (d t : String → Option String) (c : Cache) (x v : String)
    (h0 : x ≠ "") (h : assocFind c x = some v) :
    translate_text d t c x = (v, c) := by
  simp [translate_text, h0, h]

/-- `translate_text` either leaves the cache unchanged or prepends exactly
the binding of the input text to the value it returns. -/
theorem translate_text_shape (d t : String → Option String) (c : Cache) (x : String) :
    (translate_text d t c x).2 = c ∨
    (x ≠ "" ∧ (translate_text d t c x).2 = (x, (translate_text d t c x).1) :: c) := by
  unfold translate_text
  split
  next => left; rfl
  next h0 =>
    split
    next v hv => left; rfl
    next hf =>
      split
      next hall => right; exact ⟨h0, rfl⟩
      next hall =>
        split
        next v hd => right; exact ⟨h0, rfl⟩
        next hd =>
          split
          next tr hs =>
            split
            next ht => right; exact ⟨h0, rfl⟩
            next ht => left; rfl
          next hs => left; rfl

/-- C2: for every text (cached or not) and every deterministic behaviour of
the external translation service, calling `translate_text` twice in
succession — threading the cache of the first call into the second —
returns the same result both times, also when the first call went through
the external translation step. -/
theorem claim_C2_normalize_idempotent (d t : String → Option String)
    (c : Cache) (x : String) :
    (translate_text d t (translate_text d t c x).2 x).1 =
      (translate_text d t c x).1 := by
  rcases translate_text_shape d t c x with h | ⟨h0, h⟩
  · rw [h]
  · rw [h]
    rw [translate_text_cached d t ((x, (translate_text d t c x).1) :: c) x
        ((translate_text d t c x).1) h0 (by simp [assocFind])]

/-- C7: starting from the fresh empty cache, `translate_text "да"` returns
`"yes"` through the fixed domain-term dictionary for every behaviour of the
external translation oracles (so the external step is never consulted),
and `translate_text "Hello"`, whose alphabetic characters are all basic
Latin, returns `"Hello"` unchanged and caches it as a no-op entry. -/
theorem claim_C7_policy_order :
    (∀ detect trans : String → Option String,
        (translate_text detect trans [] "да").1 = "yes") ∧
    (∀ detect trans : String → Option String,
        translate_text detect trans [] "Hello" = ("Hello", [("Hello", "Hello")])) :=
  ⟨fun _ _ => rfl, fun _ _ => rfl⟩

/-! ## Field-preservation lemmas for the extraction passes -/

/-- A record field not written by a fold step is preserved by the fold. -/
theorem foldl_pres_field {α β : Type} (g : PlayerRecord → β)
    (step : PlayerRecord → α → PlayerRecord)
    (hstep : ∀ r a, g (step r a) = g r) :
    ∀ (l : List α) (r : PlayerRecord), g (l.foldl step r) = g r
  | [], _ => rfl
  | a :: l, r => by
      rw [List.foldl_cons, foldl_pres_field g step hstep l (step r a), hstep]

/-- The kills/deaths/KD/premium/goldboxes pass never writes `rank`. -/
theorem statStep_rank (r : PlayerRecord) (row : Row) :
    (statStep r row).rank = r.rank := by
  unfold statStep
  try dsimp only
  repeat' split
  all_goals rfl

/-- The kills/deaths/KD/premium/goldboxes pass never writes `crystals_rank`. -/
theorem statStep_crystals (r : PlayerRecord) (row : Row) :
    (statStep r row).crystals_rank = r.crystals_rank := by
  unfold statStep
  try dsimp only
  repeat' split
  all_goals rfl

/-- The ranking-positions pass never writes `rank`. -/
theorem rankingStep_rank (r : PlayerRecord) (row : Row) :
    (rankingStep r row).rank = r.rank := by
  unfold rankingStep
  try dsimp only
  repeat' split
  all_goals rfl

/-- The ranking-positions pass never writes `crystals_rank`. -/
theorem rankingStep_crystals (r : PlayerRecord) (row : Row) :
    (rankingStep r row).crystals_rank = r.crystals_rank := by
  unfold rankingStep
  try dsimp only
  repeat' split
  all_goals rfl

/-- The equipment step never writes `rank`. -/
theorem equipmentPass_rank (sections : List String) (r : PlayerRecord) :
    (equipmentPass sections r).rank = r.rank := by
  unfold equipmentPass
  try dsimp only
  repeat' split
  all_goals rfl

/-- The equipment step never writes `crystals_rank`. -/
theorem equipmentPass_crystals (sections : List String) (r : PlayerRecord) :
    (equipmentPass sections r).crystals_rank = r.crystals_rank := by
  unfold equipmentPass
  try dsimp only
  repeat' split
  all_goals rfl

/-- The experience table fallback writes only `experience`. -/
theorem expMethod2_pres (rows : List Row) (r r' : PlayerRecord)
    (h : expMethod2 r rows = some r') :
    r'.rank = r.rank ∧ r'.crystals_rank = r.crystals_rank := by
  induction rows generalizing r with
  | nil =>
      unfold expMethod2 at h
      cases h
      exact ⟨rfl, rfl⟩
  | cons row rest ih =>
      unfold expMethod2 at h
      dsimp only at h
      repeat' split at h
      all_goals first
        | exact ih r h
        | (cases h <;> exact ⟨rfl, rfl⟩)

/-- The whole experience extraction writes only `experience`. -/
theorem expPass_pres (doc : Doc) (r r' : PlayerRecord)
    (h : expPass doc r = some r') :
    r'.rank = r.rank ∧ r'.crystals_rank = r.crystals_rank := by
  unfold expPass at h
  try dsimp only at h
  repeat' split at h
  all_goals first
    | exact expMethod2_pres _ r r' h
    | (cases h <;> exact ⟨rfl, rfl⟩)

/-- The kills/deaths/KD/premium/goldboxes pass never writes `experience`. -/
theorem statStep_experience (r : PlayerRecord) (row : Row) :
    (statStep r row).experience = r.experience := by
  unfold statStep
  try dsimp only
  repeat' split
  all_goals rfl

/-- The ranking-positions pass never writes `experience`. -/
theorem rankingStep_experience (r : PlayerRecord) (row : Row) :
    (rankingStep r row).experience = r.experience := by
  unfold rankingStep
  try dsimp only
  repeat' split
  all_goals rfl

/-- The equipment step never writes `experience`. -/
theorem equipmentPass_experience (sections : List String) (r : PlayerRecord) :
    (equipmentPass sections r).experience = r.experience := by
  unfold equipmentPass
  try dsimp only
  repeat' split
  all_goals rfl

/-- The image rank step never writes `experience`. -/
theorem rankImagePass_experience (doc : Doc) (r : PlayerRecord) :
    (rankImagePass doc r).experience = r.experience := by
  unfold rankImagePass
  try dsimp only
  repeat' split
  all_goals rfl

/-- The gray-font rank step never writes `experience`. -/
theorem grayFontPass_experience (fonts : List String) (r : PlayerRecord) :
    (grayFontPass fonts r).experience = r.experience := by
  unfold grayFontPass
  try dsimp only
  repeat' split
  all_goals rfl

/-- The image rank step never writes `crystals_rank`. -/
theorem rankImagePass_crystals (doc : Doc) (r : PlayerRecord) :
    (rankImagePass doc r).crystals_rank = r.crystals_rank := by
  unfold rankImagePass
  try dsimp only
  repeat' split
  all_goals rfl

/-- The gray-font rank step never writes `crystals_rank`. -/
theorem grayFontPass_crystals (fonts : List String) (r : PlayerRecord) :
    (grayFontPass fonts r).crystals_rank = r.crystals_rank := by
  unfold grayFontPass
  try dsimp only
  repeat' split
  all_goals rfl

/-! ## Claim C9: the crystals ranking position is always the sentinel -/

/-- C9: for every successfully parsed document and every nickname, the
`PlayerRecord` returned by `get_player_stats` has its `crystals_rank`
field equal to the `"N/A"` sentinel — no pass of the extractor ever
assigns it (and leaderboard entries carry no such field at all). -/
theorem claim_C9_crystals_rank_sentinel (doc : Doc) (nick : String)
    (rec : PlayerRecord) (h : get_player_stats doc nick = some rec) :
    rec.crystals_rank = "N/A" := by
  unfold get_player_stats at h
  dsimp only at h
  split at h
  next => cases h
  next r3 hexp =>
    cases h
    rw [equipmentPass_crystals,
        foldl_pres_field PlayerRecord.crystals_rank rankingStep rankingStep_crystals,
        foldl_pres_field PlayerRecord.crystals_rank statStep statStep_crystals,
        (expPass_pres doc _ r3 hexp).2, grayFontPass_crystals, rankImagePass_crystals]

/-- Witness for C9 at a concrete document. -/
theorem claim_C9_witness :
    get_player_stats c9Doc "p" = some c9Rec ∧ c9Rec.crystals_rank = "N/A" :=
  ⟨by decide, claim_C9_crystals_rank_sentinel c9Doc "p" c9Rec (by decide)⟩

/-! ## Claim C1: canonical form of the extracted rank -/

/-- A value found by `assocFind` is one of the table's mapped values. -/
theorem assocFind_mem (l : List (String × String)) (k v : String)
    (h : assocFind l k = some v) : v ∈ l.map Prod.snd := by
  induction l with
  | nil => cases h
  | cons p rest ih =>
      cases p with
      | mk k' v' =>
        unfold assocFind at h
        split at h
        · cases h; simp
        · simp [ih h]

/-- The image path yields `"Unknown Rank"` or a canonical mapping value. -/
theorem extract_rank_cases (src : String) :
    extract_rank_from_image src = "Unknown Rank" ∨
    extract_rank_from_image src ∈ rank_mappings.map Prod.snd := by
  unfold extract_rank_from_image
  split
  · cases hf : assocFind rank_mappings (lastSlashSegment src) with
    | none => left; simp [hf]
    | some v =>
        right
        simp only [hf, Option.getD_some]
        exact assocFind_mem _ _ _ hf
  · left; rfl

/-- C1 fails on the code: on the styled-text path the extractor stores the
gray element's text verbatim, so the extracted rank can be a lower-case
Russian string — not title-cased English, not a canonical mapping value,
and neither `"Unknown"` nor `"Unknown Rank"`. -/
theorem claim_C1_counterexample :
    (get_player_stats c1Doc "SomePlayer").map PlayerRecord.rank = some "рядовой" ∧
    "рядовой" ≠ "Unknown" ∧ "рядовой" ≠ "Unknown Rank" ∧
    "рядовой" ∉ rank_mappings.map Prod.snd ∧
    ("рядовой".toList.all fun c => decide (c.toNat < 128)) = false :=
  ⟨rfl, by decide, by decide, by decide, rfl⟩

/-- C1 (amended): for every extracted `PlayerRecord`, the rank field is
`"Unknown"`, `"Unknown Rank"`, one of the canonical title-cased English
names of the rank-image table, or the verbatim text of the *first*
gray-styled element whose text length is strictly between 2 and 30 (the
styled-text path stores that raw text without canonicalisation). -/
theorem claim_C1_rank_form (doc : Doc) (nick : String) (rec : PlayerRecord)
    (h : get_player_stats doc nick = some rec) :
    rec.rank = "Unknown" ∨ rec.rank = "Unknown Rank" ∨
    rec.rank ∈ rank_mappings.map Prod.snd ∨
    doc.grayFonts.find? (fun t =>
        decide (t ≠ "") && decide (2 < t.length) && decide (t.length < 30)) =
      some rec.rank := by
  unfold get_player_stats at h
  dsimp only at h
  split at h
  next => cases h
  next r3 hexp =>
    cases h
    rw [equipmentPass_rank,
        foldl_pres_field PlayerRecord.rank rankingStep rankingStep_rank,
        foldl_pres_field PlayerRecord.rank statStep statStep_rank,
        (expPass_pres doc _ r3 hexp).1]
    unfold grayFontPass
    split
    next t hfind =>
      exact Or.inr (Or.inr (Or.inr hfind))
    next hfind =>
      unfold rankImagePass
      split
      next src hsrc =>
        rcases extract_rank_cases src with h1 | h1
        · exact Or.inr (Or.inl h1)
        · exact Or.inr (Or.inr (Or.inl h1))
      next => left; rfl

/-- Witness for the amended C1 at a concrete document. -/
theorem claim_C1_witness :
    get_player_stats c1Doc "SomePlayer" = some c1Rec ∧
    (c1Rec.rank = "Unknown" ∨ c1Rec.rank = "Unknown Rank" ∨
     c1Rec.rank ∈ rank_mappings.map Prod.snd ∨
     c1Doc.grayFonts.find? (fun t =>
         decide (t ≠ "") && decide (2 < t.length) && decide (t.length < 30)) =
       some c1Rec.rank) :=
  ⟨rfl, claim_C1_rank_form c1Doc "SomePlayer" c1Rec rfl⟩

/-! ## Claim C3: the progress-indicator numerator -/

/-- A digit character differs from any non-digit character. -/
theorem digit_ne_char (c a : Char) (ha : a.isDigit = false) (h : c.isDigit = true) :
    c ≠ a := by
  intro e
  subst e
  simp [h] at ha

/-- A digit character is not whitespace. -/
theorem digit_not_ws (c : Char) (h : c.isDigit = true) : c.isWhitespace = false := by
  have h1 : c ≠ ' ' := digit_ne_char c ' ' (by decide) h
  have h2 : c ≠ '\t' := digit_ne_char c '\t' (by decide) h
  have h3 : c ≠ '\r' := digit_ne_char c '\r' (by decide) h
  have h4 : c ≠ '\n' := digit_ne_char c '\n' (by decide) h
  simp [Char.isWhitespace, h1, h2, h3, h4]

/-- `dropWhile` is the identity when no element satisfies the test. -/
theorem dropWhile_no (p : Char → Bool) (l : List Char) (h : ∀ c ∈ l, p c = false) :
    l.dropWhile p = l := by
  cases l with
  | nil => rfl
  | cons a t => simp [List.dropWhile_cons, h a (by simp)]

/-- Stripping whitespace from a digit string is the identity. -/
theorem trimChars_digits (l : List Char) (h : ∀ c ∈ l, c.isDigit = true) :
    trimChars l = l := by
  unfold trimChars
  rw [dropWhile_no _ _ (fun c hc => digit_not_ws c (h c hc))]
  rw [dropWhile_no _ _ (fun c hc => digit_not_ws c (h c (List.mem_reverse.mp hc)))]
  exact List.reverse_reverse l

/-- `int` on a non-empty pure digit string returns its numeric value. -/
theorem pyIntNat_digits (l : List Char) (h0 : l ≠ []) (h : ∀ c ∈ l, c.isDigit = true) :
    pyIntNat l = some (natOfDigits l) := by
  unfold pyIntNat
  rw [trimChars_digits l h]
  rw [if_pos ⟨h0, List.all_eq_true.mpr h⟩]

/-- The separator-group matcher consumes exactly the rendered groups. -/
theorem sepGroups_grouped (s : List Char) :
    ∀ (rest : List (List Char)), (∀ g ∈ rest, GoodGroup g) →
      sepGroups (groupedTail rest ++ s) = groupedTail rest ++ sepGroups s
  | [], _ => by simp [groupedTail]
  | g :: gs, hrest => by
      obtain ⟨a, b, c, rfl⟩ := List.length_eq_three.mp (hrest g (by simp)).1
      have hd := (hrest [a, b, c] (by simp)).2
      have ha : a.isDigit = true := hd a (by simp)
      have hb : b.isDigit = true := hd b (by simp)
      have hc : c.isDigit = true := hd c (by simp)
      have hw : (' ').isWhitespace = true := by decide
      have ih := sepGroups_grouped s gs (fun x hx => hrest x (by simp [hx]))
      simp only [groupedTail, List.cons_append, List.append_assoc]
      simp only [sepGroups, hw, ha, hb, hc, and_self, if_true, true_and]
      simp [ih]

/-- `takeWhile` over an append stops exactly at the boundary when the left
part satisfies the test throughout and the right part starts failing it. -/
theorem takeWhile_append_stop (p : Char → Bool) (f s : List Char)
    (hf : ∀ c ∈ f, p c = true) (hs : ∀ c, s.head? = some c → p c = false) :
    (f ++ s).takeWhile p = f := by
  induction f with
  | nil =>
      cases s with
      | nil => rfl
      | cons c s' => simp [List.takeWhile_cons, hs c rfl]
  | cons a f' ih =>
      simp only [List.cons_append, List.takeWhile_cons, hf a (by simp), if_true]
      rw [ih (fun c hc => hf c (by simp [hc]))]

/-- The separator-group matcher stops at the `" / "` divider. -/
theorem sepGroups_slash_stop (s₂ : List Char) : sepGroups (' ' :: '/' :: s₂) = [] := by
  cases s₂ with
  | nil => rfl
  | cons x s₃ =>
      cases s₃ with
      | nil => rfl
      | cons y s₄ =>
          simp only [sepGroups]
          rw [if_neg]
          intro hcond
          exact absurd hcond.2.1 (by decide)

/-- On `"current / total"` text the experience regex matches exactly the
grouped numerator. -/
theorem expSearchAux_grouped (f : List Char) (rest : List (List Char)) (s₂ : List Char)
    (hf0 : f ≠ []) (hf3 : f.length ≤ 3) (hfd : ∀ c ∈ f, c.isDigit = true)
    (hrest : ∀ g ∈ rest, GoodGroup g) :
    expSearchAux (f ++ groupedTail rest ++ ' ' :: '/' :: s₂) =
      some (f ++ groupedTail rest) := by
  have hhead : ∀ d, (groupedTail rest ++ ' ' :: '/' :: s₂).head? = some d →
      d.isDigit = false := by
    cases rest with
    | nil =>
        intro d hd
        simp only [groupedTail, List.nil_append, List.head?_cons] at hd
        cases hd
        decide
    | cons g gs =>
        intro d hd
        simp only [groupedTail, List.cons_append, List.head?_cons] at hd
        cases hd
        decide
  cases f with
  | nil => exact absurd rfl hf0
  | cons c f' =>
      have hcd : c.isDigit = true := hfd c (by simp)
      have htw : ((c :: f') ++ (groupedTail rest ++ ' ' :: '/' :: s₂)).takeWhile Char.isDigit
          = c :: f' := takeWhile_append_stop Char.isDigit (c :: f') _ hfd hhead
      simp only [List.cons_append] at htw ⊢
      simp only [expSearchAux, hcd, if_true]
      simp only [List.append_assoc] at htw ⊢
      rw [htw, min_eq_right hf3, ← List.cons_append,
          List.take_left, List.drop_left,
          sepGroups_grouped (' ' :: '/' :: s₂) rest hrest, sepGroups_slash_stop,
          List.append_nil, List.cons_append]

/-- Dropping the spaces of a grouped rendering leaves the digit groups. -/
theorem filter_space_grouped (p : Char → Bool) (hps : p ' ' = false)
    (hpd : ∀ c, c.isDigit = true → p c = true) :
    ∀ (rest : List (List Char)), (∀ g ∈ rest, GoodGroup g) →
      (groupedTail rest).filter p = rest.flatten
  | [], _ => rfl
  | g :: gs, hrest => by
      have hg := hrest g (by simp)
      simp only [groupedTail, List.filter_cons, hps, List.flatten_cons,
        Bool.false_eq_true, if_false, List.filter_append]
      rw [filter_space_grouped p hps hpd gs (fun x hx => hrest x (by simp [hx]))]
      congr 1
      exact List.filter_eq_self.mpr (fun a ha => hpd a (hg.2 a ha))

/-- `int(match.replace(' ', ''))` on a grouped numerator is its value with
the space separators removed. -/
theorem expValueOfMatch_grouped (f : List Char) (rest : List (List Char))
    (hf0 : f ≠ []) (hfd : ∀ c ∈ f, c.isDigit = true)
    (hrest : ∀ g ∈ rest, GoodGroup g) :
    expValueOfMatch (f ++ groupedTail rest) =
      some (natOfDigits (f ++ rest.flatten)) := by
  unfold expValueOfMatch
  rw [List.filter_append,
      filter_space_grouped _ (by decide)
        (fun c hc => decide_eq_true (digit_ne_char c ' ' (by decide) hc)) rest hrest,
      List.filter_eq_self.mpr
        (fun a ha => decide_eq_true (digit_ne_char a ' ' (by decide) (hfd a ha)))]
  refine pyIntNat_digits _ (by simp [hf0]) ?_
  intro c hc
  rcases List.mem_append.mp hc with hcf | hcr
  · exact hfd c hcf
  · obtain ⟨g, hgmem, hcg⟩ := List.mem_flatten.mp hcr
    exact (hrest g hgmem).2 c hcg

/-- When the progress indicator matches and its value parses, the
experience pass returns the record updated with exactly that value. -/
theorem expPass_xp (doc : Doc) (r : PlayerRecord) (t : String) (m : List Char) (n : Nat)
    (hxp : doc.textXp = some t) (hm : expSearchAux t.toList = some m)
    (hn : expValueOfMatch m = some n) :
    expPass doc r = some { r with experience := n } := by
  unfold expPass
  rw [hxp]
  simp only [hm, hn]

/-- C3: for every document whose experience progress indicator renders a
grouped numeral, a `" / "` divider and arbitrary trailing text, the
extracted record's experience equals the numerator's digits with the
space thousands-separators removed. -/
theorem claim_C3_progress_numerator (doc : Doc) (nick : String) (rec : PlayerRecord)
    (f : List Char) (rest : List (List Char)) (tail : List Char)
    (hf0 : f ≠ []) (hf3 : f.length ≤ 3) (hfd : ∀ c ∈ f, c.isDigit = true)
    (hrest : ∀ g ∈ rest, GoodGroup g)
    (hxp : doc.textXp = some (String.mk (f ++ groupedTail rest ++ ' ' :: '/' :: tail)))
    (h : get_player_stats doc nick = some rec) :
    rec.experience = natOfDigits (f ++ rest.flatten) := by
  have hexp := expPass_xp doc
    (grayFontPass doc.grayFonts (rankImagePass doc { nickname := nick }))
    (String.mk (f ++ groupedTail rest ++ ' ' :: '/' :: tail))
    (f ++ groupedTail rest) (natOfDigits (f ++ rest.flatten)) hxp
    (expSearchAux_grouped f rest tail hf0 hf3 hfd hrest)
    (expValueOfMatch_grouped f rest hf0 hfd hrest)
  unfold get_player_stats at h
  dsimp only at h
  rw [hexp] at h
  cases h
  rw [equipmentPass_experience,
      foldl_pres_field PlayerRecord.experience rankingStep rankingStep_experience,
      foldl_pres_field PlayerRecord.experience statStep statStep_experience]

/-- Witness for C3: the fragment `"2 106 / 3 700"` yields experience 2106. -/
theorem claim_C3_witness :
    get_player_stats c3Doc "p" = some c3Rec ∧
    c3Rec.experience = natOfDigits (['2'] ++ ([['1', '0', '6']] : List (List Char)).flatten) ∧
    natOfDigits (['2'] ++ ([['1', '0', '6']] : List (List Char)).flatten) = 2106 :=
  ⟨by decide,
   claim_C3_progress_numerator c3Doc "p" c3Rec ['2'] [['1', '0', '6']] (' ' :: "3 700".toList)
     (by decide) (by decide) (by decide) (by decide) (by decide) (by decide),
   by decide⟩

/-! ## Claim C4: the experience table fallback -/

/-- The experience fallback scan is the first qualifying row's value. -/
theorem expMethod2_spec : ∀ (rows : List Row) (r r' : PlayerRecord),
    expMethod2 r rows = some r' →
    r'.experience =
      (match rows.find? expRowQualifies with
       | some row => (expRowValue row).getD r.experience
       | none => r.experience)
  | [], r, r', h => by cases h; rfl
  | row :: rest, r, r', h => by
      cases row with
      | nil =>
          have h' : expMethod2 r rest = some r' := h
          rw [List.find?_cons_of_neg _ (by simp [expRowQualifies])]
          exact expMethod2_spec rest r r' h'
      | cons c0 t0 =>
        cases t0 with
        | nil =>
            have h' : expMethod2 r rest = some r' := h
            rw [List.find?_cons_of_neg _ (by simp [expRowQualifies])]
            exact expMethod2_spec rest r r' h'
        | cons c1 t1 =>
          cases t1 with
          | nil =>
              have h' : expMethod2 r rest = some r' := h
              rw [List.find?_cons_of_neg _ (by simp [expRowQualifies])]
              exact expMethod2_spec rest r r' h'
          | cons c2 t2 =>
              simp only [expMethod2] at h
              by_cases hkw : (containsSub (pyLower c0.text) "по опыту" = true ∨
                  containsSub (pyLower c0.text) "опыт" = true)
              · rw [if_pos hkw] at h
                cases hm : expSearchAux c2.text.toList with
                | none =>
                    simp only [hm] at h
                    have hm2 : expSearchAux c2.text.data = none := hm
                    rw [List.find?_cons_of_neg _ (by simp [expRowQualifies, hm2])]
                    exact expMethod2_spec rest r r' h
                | some m =>
                    simp only [hm] at h
                    have hm' : expSearchAux c2.text.data = some m := hm
                    cases hn : expValueOfMatch m with
                    | none =>
                        simp only [hn] at h
                        exact Option.noConfusion h
                    | some n =>
                        simp only [hn, Option.some.injEq] at h
                        subst h
                        rw [List.find?_cons_of_pos _ (by
                          simp [expRowQualifies, hm']
                          exact hkw)]
                        simp [expRowValue, hm', hn]
              · rw [if_neg hkw] at h
                rw [List.find?_cons_of_neg _ (by
                  simp [expRowQualifies]
                  intro hor
                  exact absurd hor hkw)]
                exact expMethod2_spec rest r r' h

/-- C4: when the progress indicator finds nothing, the experience equals
the value of the first table row (in document order) whose category cell
matches the bilingual experience keyword and whose value cell matches the
numeric pattern — scanning stops at that first row — and when the
indicator did produce a value, the fallback result is not consulted. -/
theorem claim_C4_experience_fallback :
    (∀ (doc : Doc) (nick : String) (rec : PlayerRecord),
        xpIndicatorMatch doc = none →
        get_player_stats doc nick = some rec →
        rec.experience =
          (match (allRows doc).find? expRowQualifies with
           | some row => (expRowValue row).getD 0
           | none => 0)) ∧
    (∀ (doc : Doc) (nick : String) (rec : PlayerRecord) (m : List Char) (n : Nat),
        xpIndicatorMatch doc = some m →
        expValueOfMatch m = some n →
        get_player_stats doc nick = some rec →
        rec.experience = n) := by
  constructor
  · intro doc nick rec hind h
    unfold get_player_stats at h
    dsimp only at h
    split at h
    next => cases h
    next r3 hexp =>
      cases h
      rw [equipmentPass_experience,
          foldl_pres_field PlayerRecord.experience rankingStep rankingStep_experience,
          foldl_pres_field PlayerRecord.experience statStep statStep_experience]
      unfold xpIndicatorMatch at hind
      have h20 : (grayFontPass doc.grayFonts
          (rankImagePass doc { nickname := nick })).experience = 0 := by
        rw [grayFontPass_experience, rankImagePass_experience]
      unfold expPass at hexp
      cases hxp : doc.textXp with
      | none =>
          simp only [hxp] at hexp
          have hm2 := expMethod2_spec (allRows doc) _ r3 hexp
          rw [h20] at hm2
          exact hm2
      | some t =>
          simp only [hxp] at hind
          simp only [hxp, hind] at hexp
          have hm2 := expMethod2_spec (allRows doc) _ r3 hexp
          rw [h20] at hm2
          exact hm2
  · intro doc nick rec m n hind hn h
    unfold xpIndicatorMatch at hind
    cases hxp : doc.textXp with
    | none => simp only [hxp] at hind; cases hind
    | some t =>
        simp only [hxp] at hind
        have hexp := expPass_xp doc
          (grayFontPass doc.grayFonts (rankImagePass doc { nickname := nick }))
          t m n hxp hind hn
        unfold get_player_stats at h
        dsimp only at h
        rw [hexp] at h
        cases h
        rw [equipmentPass_experience,
            foldl_pres_field PlayerRecord.experience rankingStep rankingStep_experience,
            foldl_pres_field PlayerRecord.experience statStep statStep_experience]

/-- Witness for C4: `По опыту | #12 | 15 430` yields experience 15430 with
no indicator, and with the indicator present the conflicting row is
ignored. -/
theorem claim_C4_witness :
    (xpIndicatorMatch c4Doc = none ∧
     get_player_stats c4Doc "p" = some c4Rec ∧
     c4Rec.experience =
       (match (allRows c4Doc).find? expRowQualifies with
        | some row => (expRowValue row).getD 0
        | none => 0) ∧
     c4Rec.experience = 15430) ∧
    (xpIndicatorMatch c4bDoc = some "2 106".toList ∧
     expValueOfMatch "2 106".toList = some 2106 ∧
     get_player_stats c4bDoc "p" = some c4bRec ∧
     c4bRec.experience = 2106) :=
  ⟨⟨rfl, by decide, claim_C4_experience_fallback.1 c4Doc "p" c4Rec rfl (by decide), by decide⟩,
   ⟨rfl, rfl, by decide,
    claim_C4_experience_fallback.2 c4bDoc "p" c4bRec "2 106".toList 2106 rfl rfl (by decide)⟩⟩

/-! ## Claim C5: KD-ratio coercion -/

/-- C5: a row that reaches the KD branch (KD keyword present, kills and
deaths keywords absent) with value `"1,85"` sets the ratio to 1.85 after
the comma is replaced by a point; a value whose comma-fixed text does not
parse as a float leaves the whole record — in particular the previously
held ratio — unchanged. -/
theorem claim_C5_kd_coercion :
    (∀ (r : PlayerRecord) (c0 c1 : Cell) (rest : List Cell),
        ¬(containsSub (pyLower c0.text) "уничтожил" = true ∨
          containsSub (pyLower c0.text) "kills" = true) →
        ¬(containsSub (pyLower c0.text) "подбит" = true ∨
          containsSub (pyLower c0.text) "deaths" = true) →
        (containsSub (pyLower c0.text) "у/п" = true ∨
         containsSub (pyLower c0.text) "k/d" = true ∨
         containsSub (pyLower c0.text) "эффективность" = true) →
        c1.text = "1,85" →
        (statStep r (c0 :: c1 :: rest)).kd_ratio = 37 / 20) ∧
    (∀ (r : PlayerRecord) (c0 c1 : Cell) (rest : List Cell),
        ¬(containsSub (pyLower c0.text) "уничтожил" = true ∨
          containsSub (pyLower c0.text) "kills" = true) →
        ¬(containsSub (pyLower c0.text) "подбит" = true ∨
          containsSub (pyLower c0.text) "deaths" = true) →
        (containsSub (pyLower c0.text) "у/п" = true ∨
         containsSub (pyLower c0.text) "k/d" = true ∨
         containsSub (pyLower c0.text) "эффективность" = true) →
        parsePyFloat (commaToDot c1.text) = none →
        statStep r (c0 :: c1 :: rest) = r) := by
  constructor
  · intro r c0 c1 rest h1 h2 h3 hval
    unfold statStep
    dsimp only
    rw [if_neg h1, if_neg h2, if_pos h3, hval]
    have hp : parsePyFloat (commaToDot "1,85") =
        some ((natOfDigits ['1'] : ℚ) + fracOfDigits ['8', '5']) := rfl
    simp only [hp]
    show (natOfDigits ['1'] : ℚ) + fracOfDigits ['8', '5'] = 37 / 20
    rw [show natOfDigits ['1'] = 1 from rfl]
    unfold fracOfDigits
    rw [show natOfDigits ['8', '5'] = 85 from rfl]
    norm_num
  · intro r c0 c1 rest h1 h2 h3 hval
    unfold statStep
    dsimp only
    rw [if_neg h1, if_neg h2, if_pos h3]
    simp only [hval]

/-- Witness for C5 at concrete KD rows `У/П | 1,85` and `У/П | n/a`. -/
theorem claim_C5_witness :
    (statStep { nickname := "w5" }
        [⟨"У/П", none, none⟩, ⟨"1,85", none, none⟩]).kd_ratio = 37 / 20 ∧
    statStep { nickname := "w5" } [⟨"У/П", none, none⟩, ⟨"n/a", none, none⟩] =
      { nickname := "w5" } :=
  ⟨claim_C5_kd_coercion.1 { nickname := "w5" } ⟨"У/П", none, none⟩ ⟨"1,85", none, none⟩ []
      (by decide) (by decide) (by decide) rfl,
   claim_C5_kd_coercion.2 { nickname := "w5" } ⟨"У/П", none, none⟩ ⟨"n/a", none, none⟩ []
      (by decide) (by decide) (by decide) (by decide)⟩

/-! ## Claim C6: leaderboard truncation and order -/

/-- `get_leaderboard` is the qualifying entries truncated to 100. -/
theorem get_leaderboard_eq (doc : Doc) (category : String) :
    get_leaderboard doc category = (lbEntries doc category).take 100 := by
  unfold get_leaderboard lbEntries
  dsimp only

/-- C6: for every document and category the extracted leaderboard has at
most 100 entries, is a prefix of the qualifying rows' entries in document
order (no sorting), and has exactly 100 entries whenever at least 100 rows
qualify. -/
theorem claim_C6_leaderboard_cap (doc : Doc) (category : String) :
    (get_leaderboard doc category).length ≤ 100 ∧
    (get_leaderboard doc category) <+: lbEntries doc category ∧
    (100 ≤ (lbEntries doc category).length →
      (get_leaderboard doc category).length = 100) := by
  rw [get_leaderboard_eq]
  refine ⟨List.length_take_le 100 _, List.take_prefix 100 _, ?_⟩
  intro hlen
  rw [List.length_take]
  exact min_eq_left hlen

/-- Witness for C6: 101 qualifying rows are truncated to 100 entries. -/
theorem claim_C6_witness :
    100 ≤ (lbEntries c6Doc "experience").length ∧
    (get_leaderboard c6Doc "experience").length = 100 :=
  ⟨by decide, (claim_C6_leaderboard_cap c6Doc "experience").2.2 (by decide)⟩

/-! ## Claim C8: ranking-position stripping -/

/-- C8 fails on the code: the extractor removes every `#` of the position
cell, not only a leading one, so on the cell `"#0#"` the claim predicts
the position `"0#"` while the code strips to `"0"` and stores the
`"N/A"` sentinel. -/
theorem claim_C8_counterexample :
    (get_player_stats c8Doc "p").map PlayerRecord.experience_rank = some "N/A" ∧
    claimStripLeadingHash "#0#" = "0#" ∧
    "0#" ≠ "0" ∧ ("N/A" : String) ≠ "0#" :=
  ⟨by decide, rfl, by decide, by decide⟩

/-- C8 (amended): in the ranking-positions pass, the second cell with
every `#` character removed becomes the position value of the matched
field, and the `"N/A"` sentinel is stored when that stripped value is
literally `"0"`; this holds for each of the three fields the pass
populates, under its elif-chain reach conditions. -/
theorem claim_C8_position_stripping :
    (∀ (r : PlayerRecord) (c0 c1 c2 : Cell) (rest : List Cell),
        containsSub (pyLower c0.text) "по опыту" = true →
        (rankingStep r (c0 :: c1 :: c2 :: rest)).experience_rank =
          (if removeChar '#' c1.text ≠ "0" then removeChar '#' c1.text else "N/A")) ∧
    (∀ (r : PlayerRecord) (c0 c1 c2 : Cell) (rest : List Cell),
        containsSub (pyLower c0.text) "по опыту" = false →
        ¬(containsSub (pyLower c0.text) "голдоловов" = true ∨
          containsSub (pyLower c0.text) "золот" = true) →
        containsSub (pyLower c0.text) "по киллам" = true →
        (rankingStep r (c0 :: c1 :: c2 :: rest)).kills_rank =
          (if removeChar '#' c1.text ≠ "0" then removeChar '#' c1.text else "N/A")) ∧
    (∀ (r : PlayerRecord) (c0 c1 c2 : Cell) (rest : List Cell),
        containsSub (pyLower c0.text) "по опыту" = false →
        ¬(containsSub (pyLower c0.text) "голдоловов" = true ∨
          containsSub (pyLower c0.text) "золот" = true) →
        containsSub (pyLower c0.text) "по киллам" = false →
        containsSub (pyLower c0.text) "по эффективности" = true →
        (rankingStep r (c0 :: c1 :: c2 :: rest)).efficiency_rank =
          (if removeChar '#' c1.text ≠ "0" then removeChar '#' c1.text else "N/A")) := by
  refine ⟨?_, ?_, ?_⟩
  · intro r c0 c1 c2 rest h1
    unfold rankingStep
    dsimp only
    rw [if_pos h1]
  · intro r c0 c1 c2 rest h1 h2 h3
    unfold rankingStep
    dsimp only
    rw [if_neg (by simp [h1]), if_neg h2, if_pos h3]
  · intro r c0 c1 c2 rest h1 h2 h3 h4
    unfold rankingStep
    dsimp only
    rw [if_neg (by simp [h1]), if_neg h2, if_neg (by simp [h3]), if_pos h4]

/-- Witness for the amended C8, with the `"0"`-to-sentinel case explicit. -/
theorem claim_C8_witness :
    (rankingStep { nickname := "w8" }
        [⟨"По опыту", none, none⟩, ⟨"#0", none, none⟩, ⟨"x", none, none⟩]).experience_rank =
      (if removeChar '#' "#0" ≠ "0" then removeChar '#' "#0" else "N/A") ∧
    (rankingStep { nickname := "w8" }
        [⟨"По киллам", none, none⟩, ⟨"#12", none, none⟩, ⟨"x", none, none⟩]).kills_rank =
      (if removeChar '#' "#12" ≠ "0" then removeChar '#' "#12" else "N/A") ∧
    (rankingStep { nickname := "w8" }
        [⟨"По эффективности", none, none⟩, ⟨"#7", none, none⟩, ⟨"x", none, none⟩]).efficiency_rank =
      (if removeChar '#' "#7" ≠ "0" then removeChar '#' "#7" else "N/A") ∧
    removeChar '#' "#0" = "0" ∧
    (rankingStep { nickname := "w8" }
        [⟨"По опыту", none, none⟩, ⟨"#0", none, none⟩, ⟨"x", none, none⟩]).experience_rank = "N/A" :=
  ⟨claim_C8_position_stripping.1 { nickname := "w8" } ⟨"По опыту", none, none⟩
      ⟨"#0", none, none⟩ ⟨"x", none, none⟩ [] (by decide),
   claim_C8_position_stripping.2.1 { nickname := "w8" } ⟨"По киллам", none, none⟩
      ⟨"#12", none, none⟩ ⟨"x", none, none⟩ [] (by decide) (by decide) (by decide),
   claim_C8_position_stripping.2.2 { nickname := "w8" } ⟨"По эффективности", none, none⟩
      ⟨"#7", none, none⟩ ⟨"x", none, none⟩ [] (by decide) (by decide) (by decide) (by decide),
   by decide, by decide⟩

/-! ## Claim C10: crystals heading with no following table -/

/-- C10: when the `кристалл` heading is present but no table follows it,
the crystals leaderboard is the default full-document scan result, exactly
as for the default category. -/
theorem claim_C10_crystals_fallback (doc : Doc) (h : doc.crystalHeading = some none) :
    get_leaderboard doc "crystals" = get_leaderboard doc "experience" := by
  unfold get_leaderboard
  dsimp only
  rw [h, if_pos rfl, if_neg (by decide)]

/-- Witness for C10 at a concrete document. -/
theorem claim_C10_witness :
    c10Doc.crystalHeading = some none ∧
    get_leaderboard c10Doc "crystals" = get_leaderboard c10Doc "experience" :=
  ⟨rfl, claim_C10_crystals_fallback c10Doc rfl⟩

end RTanks
